import Mathlib

/-!
Shallow embedding of the recipes HTTP service in `src/main.go` (gin + MongoDB).
Go machine values are modelled as follows: MongoDB ObjectIDs as `Nat`
(`primitive.NilObjectID` is `0`, `primitive.NewObjectID` draws a fresh value
from a counter held in the storage state), `time.Time` as `Nat`, Go slices of
recipes as `Option (List Recipe)` so the nil slice (`none`) and a non-nil
empty slice (`some []`) stay distinct, as they do under `encoding/json`.
Fallible collaborator calls (JSON binding, `InsertOne`, `UpdateOne`, `Find`,
cursor `Decode`) are passed in explicitly as `Except`/`Option` results, so a
handler is a pure function of its request, its environment outcomes and the
storage state.
-/

/-- The `Recipe` struct of `main.go` (lines 38-46): an ObjectID, a name, three
string sequences and a creation timestamp. Go nil string slices inside a
recipe are modelled as `[]`, which matches their observable behaviour in the
handlers (only iteration and replacement occur). -/
structure Recipe where
  ID : Nat
  Name : String
  Tags : List String
  Ingredients : List String
  Instructions : List String
  PublishedAt : Nat
deriving Repr, DecidableEq

/-- The zero value of the Go `Recipe` struct: this is what `var recipe Recipe`
declares before `cur.Decode` runs. -/
def zeroRecipe : Recipe :=
  { ID := 0, Name := "", Tags := [], Ingredients := [], Instructions := [], PublishedAt := 0 }

/-- The storage collaborator: the `recipes` collection's documents, in natural
(insertion) order, plus the freshness counter backing `primitive.NewObjectID`. -/
structure DB where
  docs : List Recipe
  nextOid : Nat
deriving Repr, DecidableEq

/-- Model of `primitive.NewObjectID()`: returns a value strictly above the
counter, so it is never `0` (= `primitive.NilObjectID`) and never collides
with an id drawn earlier from the same counter. -/
def NewObjectID (db : DB) : Nat × DB :=
  (db.nextOid + 1, { db with nextOid := db.nextOid + 1 })

/-- Model of `collection.InsertOne`: the document is appended to the
collection in natural order. -/
def insertOne (r : Recipe) (db : DB) : DB :=
  { db with docs := db.docs ++ [r] }

/-- Model of `primitive.ObjectIDFromHex` (mongo driver): a 24-character hex
string parses to its value; anything else is an error. -/
def ObjectIDFromHex (s : String) : Except String Nat :=
  if s.length == 24 && s.data.all (fun c =>
      ('0' ≤ c && c ≤ '9') || ('a' ≤ c && c ≤ 'f') || ('A' ≤ c && c ≤ 'F')) then
    .ok (s.data.foldl (fun acc c =>
      acc * 16 +
        (if '0' ≤ c && c ≤ '9' then c.toNat - 48
         else if 'a' ≤ c && c ≤ 'f' then c.toNat - 87
         else c.toNat - 55)) 0)
  else
    .error "the provided hex string is not a valid ObjectID"

/-- ASCII simple case fold of one rune, the effect of `strings.EqualFold`'s
per-rune folding on the ASCII range (the Unicode tables beyond ASCII are out
of scope of this embedding). -/
def foldRune (c : Char) : Char :=
  if 'A' ≤ c && c ≤ 'Z' then Char.ofNat (c.toNat + 32) else c

/-- Model of `strings.EqualFold`: equality of the two strings after case
folding each rune. -/
def EqualFold (s t : String) : Bool :=
  s.data.map foldRune == t.data.map foldRune

/-- A Go `[]Recipe` value: `none` is the nil slice, `some l` a non-nil slice
holding `l`. -/
def RecipeSlice : Type := Option (List Recipe)
deriving instance DecidableEq, Repr for RecipeSlice

/-- Model of `make([]Recipe, 0)`: a non-nil empty slice. -/
def goMake : RecipeSlice := some []

/-- Model of Go `append` on a `[]Recipe`: appending to the nil slice yields a
non-nil slice. -/
def goAppend (s : RecipeSlice) (r : Recipe) : RecipeSlice :=
  match s with
  | none => some [r]
  | some l => some (l ++ [r])

/-- Model of `encoding/json` marshalling of a `[]Recipe`, parameterised by the
marshalling of a single element: a nil slice marshals to `null`, a non-nil
slice to a bracketed comma-separated list. -/
def goMarshalSlice (render : Recipe → String) : RecipeSlice → String
  | none => "null"
  | some l => "[" ++ String.intercalate "," (l.map render) ++ "]"

/-- Model of gin's `c.Query("tag")`: an absent query parameter reads as the
empty string. -/
def Query (v : Option String) : String := v.getD ""

/-- A JSON response body produced by the handlers: a recipe array, a single
recipe, a confirmation message object, or an error message object. -/
inductive HBody where
  | recipes (l : RecipeSlice)
  | recipe (r : Recipe)
  | message (s : String)
  | errorMsg (s : String)
deriving Repr, DecidableEq

/-- An HTTP response: status code and JSON body, as passed to `c.JSON`. -/
structure HResponse where
  status : Nat
  body : HBody
deriving Repr, DecidableEq

/-- Effect of one iteration of the cursor loop in `ListRecipeHandler`
(`main.go` lines 86-88) on the loop's fresh zero-valued `recipe` variable:
`cur.Decode` either fills it or fails with an ignored error, leaving it
zero-valued. -/
def decodeOrZero (doc : Except String Recipe) : Recipe :=
  match doc with
  | .ok r => r
  | .error _ => zeroRecipe

/-- `ListRecipeHandler` (`main.go` lines 72-94). `findRes` is the outcome of
`collection.Find`: an error, or the cursor's documents, each carrying its own
decode outcome. A decode error is ignored and the recipe is appended either
way. -/
def ListRecipeHandler (findRes : Except String (List (Except String Recipe))) : HResponse :=
  match findRes with
  | .error e => { status := 500, body := .errorMsg e }
  | .ok cur =>
    let recipes : RecipeSlice := cur.foldl (fun acc doc => goAppend acc (decodeOrZero doc)) goMake
    { status := 200, body := .recipes recipes }

/-- `NewRecipeHandler` (`main.go` lines 137-156). `body` is the outcome of
`c.ShouldBindJSON`, `insertErr` the outcome of `collection.InsertOne`, `now`
the reading of `time.Now()`. Returns the response and the storage state. -/
def NewRecipeHandler (body : Except String Recipe) (insertErr : Option String)
    (now : Nat) (db : DB) : HResponse × DB :=
  match body with
  | .error e => ({ status := 400, body := .errorMsg e }, db)
  | .ok recipe0 =>
    let p := NewObjectID db
    let recipe := { recipe0 with ID := p.1, PublishedAt := now }
    match insertErr with
    | some _ => ({ status := 500, body := .errorMsg "Error while inserting a new recipe" }, p.2)
    | none => ({ status := 200, body := .recipe recipe }, insertOne recipe p.2)

/-- Body of the scan loop of `SearchRecipesHandler` (`main.go` lines 178-188):
the inner loop over `recipes[i].Tags` sets the `found` flag (without breaking)
whenever a tag is `EqualFold`-equal to the query; if set, the recipe is
appended to `listOfRecipes`. -/
def searchStep (tag : String) (acc : RecipeSlice) (r : Recipe) : RecipeSlice :=
  let found := r.Tags.foldl (fun f t => if EqualFold t tag then true else f) false
  if found then goAppend acc r else acc

/-- `SearchRecipesHandler` (`main.go` lines 174-191): scans the process-wide
`recipes` cache, accumulating matches into `listOfRecipes := make([]Recipe, 0)`. -/
def SearchRecipesHandler (tag : String) (recipes : List Recipe) : HResponse :=
  let listOfRecipes : RecipeSlice := recipes.foldl (searchStep tag) goMake
  { status := 200, body := .recipes listOfRecipes }

/-- Model of `collection.UpdateOne` with filter `bson.M{"_id": objectId}` and a
`$set` on the four mutable fields (`main.go` lines 223-230): MongoDB's
`UpdateOne` updates at most the first matching document. -/
def updateOne (objectId : Nat) (recipe : Recipe) : List Recipe → List Recipe
  | [] => []
  | d :: ds =>
    if d.ID = objectId then
      { d with Name := recipe.Name, Instructions := recipe.Instructions,
               Ingredients := recipe.Ingredients, Tags := recipe.Tags } :: ds
    else
      d :: updateOne objectId recipe ds

/-- The `objectId, _ := primitive.ObjectIDFromHex(id)` line of
`UpdateRecipeHandler` (`main.go` line 222): the parse error is discarded, so
on parse failure `objectId` keeps the zero ObjectID (`primitive.NilObjectID`). -/
def parsedObjectId (id : String) : Nat :=
  match ObjectIDFromHex id with
  | .ok v => v
  | .error _ => 0

/-- `UpdateRecipeHandler` (`main.go` lines 213-239). `id` is the path
parameter, `body` the outcome of `c.ShouldBindJSON`, `updateErr` the outcome
of `collection.UpdateOne`. -/
def UpdateRecipeHandler (id : String) (body : Except String Recipe)
    (updateErr : Option String) (db : DB) : HResponse × DB :=
  match body with
  | .error e => ({ status := 400, body := .errorMsg e }, db)
  | .ok recipe =>
    let objectId : Nat := parsedObjectId id
    match updateErr with
    | some e => ({ status := 500, body := .errorMsg e }, db)
    | none =>
      ({ status := 200, body := .message "Recipe has been updated" },
       { db with docs := updateOne objectId recipe db.docs })

/-- A request to the active routing table of `main` (`main.go` lines 281-284),
together with the environment outcomes (binding, storage, clock) that the
handler will observe while serving it. -/
inductive Request where
  | list (findErr : Option String)
  | create (body : Except String Recipe) (insertErr : Option String) (now : Nat)
  | search (tag : Option String)
  | update (id : String) (body : Except String Recipe) (updateErr : Option String)

/-- The whole-program state: the storage collaborator plus the process-wide
`recipes` cache (`main.go` line 48) read by the search handler. -/
structure AppState where
  db : DB
  recipes : List Recipe
deriving Repr, DecidableEq

/-- The initial process state: empty collection, nil `recipes` cache. -/
def initState : AppState := { db := { docs := [], nextOid := 0 }, recipes := [] }

/-- Dispatch of one request by the active routing table: each arm calls the
corresponding handler. When `Find` succeeds it yields the collection's
documents, all decoding cleanly, since they were stored from `Recipe` values. -/
def handle (s : AppState) (req : Request) : AppState × HResponse :=
  match req with
  | .list findErr =>
    match findErr with
    | some e => (s, ListRecipeHandler (.error e))
    | none => (s, ListRecipeHandler (.ok (s.db.docs.map .ok)))
  | .create body insertErr now =>
    let p := NewRecipeHandler body insertErr now s.db
    ({ s with db := p.2 }, p.1)
  | .search tag => (s, SearchRecipesHandler (Query tag) s.recipes)
  | .update id body updateErr =>
    let p := UpdateRecipeHandler id body updateErr s.db
    ({ s with db := p.2 }, p.1)

/-- Run of the program over a sequence of requests from a given state. -/
def run (s : AppState) : List Request → AppState
  | [] => s
  | req :: reqs => run (handle s req).1 reqs

/-! ### Concrete example values used to exercise the handlers -/

/-- A caller-supplied create/update body, with caller-chosen `ID` and
`PublishedAt` that the create handler must overwrite. -/
def rIn : Recipe :=
  { ID := 99, Name := "Pasta", Tags := ["italian"], Ingredients := ["pasta", "water"],
    Instructions := ["boil"], PublishedAt := 77 }

/-- A stored document with id 1. -/
def dA : Recipe :=
  { ID := 1, Name := "a", Tags := ["x"], Ingredients := [], Instructions := [],
    PublishedAt := 10 }

/-- A stored document with id 2. -/
def dB : Recipe :=
  { ID := 2, Name := "b", Tags := ["y"], Ingredients := [], Instructions := [],
    PublishedAt := 20 }

/-- A storage state holding `dA` and `dB`, with the id counter past both ids. -/
def db0 : DB := { docs := [dA, dB], nextOid := 5 }

/-- The 24-character hex spelling of ObjectID 2, i.e. of `dB.ID`. -/
def hex2 : String := "000000000000000000000002"

/-- What `dB` becomes when an update body `rIn` is applied to it. -/
def dB2 : Recipe :=
  { dB with Name := rIn.Name, Instructions := rIn.Instructions,
            Ingredients := rIn.Ingredients, Tags := rIn.Tags }

/-- A recipe carrying an empty-string tag. -/
def emptyTagRecipe : Recipe :=
  { ID := 3, Name := "c", Tags := [""], Ingredients := [], Instructions := [],
    PublishedAt := 30 }

/-! ### Helper lemmas -/

/-- A recipe matches a search query when some tag is `EqualFold`-equal to it. -/
def tagMatch (tag : String) (r : Recipe) : Bool :=
  r.Tags.any (fun t => EqualFold t tag)

theorem goAppend_some (l : List Recipe) (r : Recipe) :
    goAppend (some l) r = some (l ++ [r]) := rfl

theorem tags_fold_any (tag : String) (ts : List String) (b : Bool) :
    ts.foldl (fun f t => if EqualFold t tag then true else f) b
      = (b || ts.any (fun t => EqualFold t tag)) := by
  induction ts generalizing b with
  | nil => simp
  | cons t ts ih =>
    rw [List.foldl_cons, List.any_cons, ih]
    cases h : EqualFold t tag <;> cases b <;> simp [h]

theorem searchStep_some (tag : String) (acc : List Recipe) (r : Recipe) :
    searchStep tag (some acc) r
      = if tagMatch tag r then some (acc ++ [r]) else some acc := by
  show (if (r.Tags.foldl (fun f t => if EqualFold t tag then true else f) false) = true
        then goAppend (some acc) r else some acc) = _
  rw [tags_fold_any, Bool.false_or, goAppend_some, tagMatch]

theorem search_foldl (tag : String) (l : List Recipe) (acc : List Recipe) :
    l.foldl (searchStep tag) (some acc) = some (acc ++ l.filter (tagMatch tag)) := by
  induction l generalizing acc with
  | nil => simp
  | cons r l ih =>
    rw [List.foldl_cons, searchStep_some, List.filter_cons]
    cases h : tagMatch tag r <;> simp [h, ih]

theorem search_spec (tag : String) (cache : List Recipe) :
    SearchRecipesHandler tag cache
      = { status := 200, body := .recipes (some (cache.filter (tagMatch tag))) } := by
  show ({ status := 200, body := .recipes (cache.foldl (searchStep tag) goMake) } : HResponse)
      = { status := 200, body := .recipes (some (cache.filter (tagMatch tag))) }
  rw [show goMake = some [] from rfl, search_foldl]
  simp

theorem list_foldl_map (cur : List (Except String Recipe)) (acc : List Recipe) :
    cur.foldl (fun acc doc => goAppend acc (decodeOrZero doc)) (some acc)
      = some (acc ++ cur.map decodeOrZero) := by
  induction cur generalizing acc with
  | nil => simp
  | cons doc cur ih =>
    simp only [List.foldl_cons, goAppend_some, List.map_cons]
    rw [ih]
    simp

theorem updateOne_pointwise (oid : Nat) (r : Recipe) (docs : List Recipe) (i : Nat) :
    (updateOne oid r docs)[i]? = docs[i]? ∨
    (∃ d, docs[i]? = some d ∧ d.ID = oid ∧
      (updateOne oid r docs)[i]?
        = some { d with Name := r.Name, Instructions := r.Instructions,
                        Ingredients := r.Ingredients, Tags := r.Tags }) := by
  induction docs generalizing i with
  | nil => left; simp [updateOne]
  | cons d ds ih =>
    by_cases h : d.ID = oid
    · cases i with
      | zero => right; exact ⟨d, by simp, h, by simp [updateOne, h]⟩
      | succ j => left; simp [updateOne, h]
    · cases i with
      | zero => left; simp [updateOne, h]
      | succ j => simpa [updateOne, h] using ih j

theorem updateOne_length (oid : Nat) (r : Recipe) (docs : List Recipe) :
    (updateOne oid r docs).length = docs.length := by
  induction docs with
  | nil => rfl
  | cons d ds ih =>
    by_cases h : d.ID = oid <;> simp [updateOne, h, ih]

theorem updateOne_no_match (oid : Nat) (r : Recipe) (docs : List Recipe)
    (h : ∀ d ∈ docs, d.ID ≠ oid) : updateOne oid r docs = docs := by
  induction docs with
  | nil => rfl
  | cons d ds ih =>
    have hd : d.ID ≠ oid := h d (List.mem_cons_self d ds)
    simp [updateOne, hd]
    exact ih fun x hx => h x (List.mem_cons_of_mem d hx)

theorem equalFold_empty_iff (t : String) : EqualFold t "" = true ↔ t = "" := by
  constructor
  · intro h
    simp only [EqualFold, beq_iff_eq] at h
    have hd : t.data = [] := by
      cases hd : t.data with
      | nil => rfl
      | cons c cs => rw [hd] at h; simp at h
    have : t.data = String.data "" := hd
    exact String.ext this
  · intro h; subst h; rfl

/-! ### Claim theorems -/

/-- C1: for every well-formed JSON create request, `NewRecipeHandler` assigns a
fresh identifier (distinct from every stored id) and the current timestamp,
overwriting any caller-supplied `id`/`publishedAt`, appends the resulting
recipe to storage, and returns HTTP 200 with the full stored recipe, whose
`name`, `tags`, `ingredients` and `instructions` are the caller's input
unmodified. -/
theorem create_assigns_fresh_id_and_timestamp (r : Recipe) (now : Nat) (db : DB)
    (hfresh : ∀ d ∈ db.docs, d.ID ≤ db.nextOid) :
    (NewRecipeHandler (.ok r) none now db).1
      = { status := 200,
          body := .recipe { r with ID := db.nextOid + 1, PublishedAt := now } } ∧
    (NewRecipeHandler (.ok r) none now db).2.docs
      = db.docs ++ [{ r with ID := db.nextOid + 1, PublishedAt := now }] ∧
    (∀ d ∈ db.docs, d.ID ≠ db.nextOid + 1) := by
  refine ⟨rfl, rfl, ?_⟩
  intro d hd
  have := hfresh d hd
  omega

/-- Witness for C1 at a concrete request (`rIn` carries caller-chosen id 99 and
timestamp 77, both overwritten) and storage state `db0`. -/
theorem create_assigns_fresh_id_and_timestamp_witness :
    (NewRecipeHandler (.ok rIn) none 42 db0).1
      = { status := 200, body := .recipe { rIn with ID := db0.nextOid + 1, PublishedAt := 42 } } :=
  (create_assigns_fresh_id_and_timestamp rIn 42 db0 (by decide)).1

/-- C2: for every well-formed update body, `UpdateRecipeHandler` preserves the
number of stored documents, and every stored document either is unchanged or
is the one matching the path id, in which case only its four mutable fields
are replaced; `ID` and `PublishedAt` are unchanged for every document. -/
theorem update_modifies_only_mutable_fields (id : String) (r : Recipe) (db : DB) :
    (UpdateRecipeHandler id (.ok r) none db).2.docs.length = db.docs.length ∧
    ∀ (i : Nat) (d d' : Recipe), db.docs[i]? = some d →
      (UpdateRecipeHandler id (.ok r) none db).2.docs[i]? = some d' →
      d'.ID = d.ID ∧ d'.PublishedAt = d.PublishedAt ∧
        (d' = d ∨
          (d.ID = parsedObjectId id ∧ d'.Name = r.Name ∧ d'.Tags = r.Tags ∧
           d'.Ingredients = r.Ingredients ∧ d'.Instructions = r.Instructions)) := by
  have hdocs : (UpdateRecipeHandler id (.ok r) none db).2.docs
      = updateOne (parsedObjectId id) r db.docs := rfl
  constructor
  · rw [hdocs, updateOne_length]
  · intro i d d' hd hd'
    rw [hdocs] at hd'
    rcases updateOne_pointwise (parsedObjectId id) r db.docs i with h | ⟨d0, h0, hid, hupd⟩
    · rw [h, hd] at hd'
      obtain rfl := Option.some.inj hd'
      exact ⟨rfl, rfl, Or.inl rfl⟩
    · rw [h0] at hd
      obtain rfl := Option.some.inj hd
      rw [hupd] at hd'
      obtain rfl := Option.some.inj hd'
      exact ⟨rfl, rfl, Or.inr ⟨hid, rfl, rfl, rfl, rfl⟩⟩

/-- Witness for C2: updating `db0` at the hex spelling of id 2 turns `dB` into
`dB2`, which keeps `dB`'s id and timestamp and takes `rIn`'s mutable fields. -/
theorem update_modifies_only_mutable_fields_witness :
    dB2.ID = dB.ID ∧ dB2.PublishedAt = dB.PublishedAt ∧
      (dB2 = dB ∨
        (dB.ID = parsedObjectId hex2 ∧ dB2.Name = rIn.Name ∧ dB2.Tags = rIn.Tags ∧
         dB2.Ingredients = rIn.Ingredients ∧ dB2.Instructions = rIn.Instructions)) :=
  (update_modifies_only_mutable_fields hex2 rIn db0).2 1 dB dB2 (by decide) (by decide)

/-- C3: for every query string and cached list, `SearchRecipesHandler` returns
HTTP 200 with exactly the recipes having at least one tag `EqualFold`-equal to
the query, in the original order (`List.filter` keeps order). An empty result
is still a 200 response. -/
theorem search_returns_case_insensitive_matches (tag : String) (cache : List Recipe) :
    SearchRecipesHandler tag cache
      = { status := 200,
          body := .recipes
            (some (cache.filter (fun r => r.Tags.any (fun t => EqualFold t tag)))) } := by
  rw [search_spec]
  rfl

/-- C4: a malformed JSON body makes both the create and the update handler
answer HTTP 400 with the binding error and leave the storage state untouched,
whatever the other request inputs are. -/
theorem malformed_body_yields_400_no_mutation (e : String) (insertErr updateErr : Option String)
    (now : Nat) (db : DB) (id : String) :
    NewRecipeHandler (.error e) insertErr now db = ({ status := 400, body := .errorMsg e }, db) ∧
    UpdateRecipeHandler id (.error e) updateErr db
      = ({ status := 400, body := .errorMsg e }, db) :=
  ⟨rfl, rfl⟩

/-- C5: when `InsertOne` fails, `NewRecipeHandler` answers HTTP 500 with the
fixed generic message, independent of the raw persistence error `e`, so the
response body carries no text from `e`; the collection is left unchanged. -/
theorem create_insert_failure_generic_500 (r : Recipe) (e : String) (now : Nat) (db : DB) :
    (NewRecipeHandler (.ok r) (some e) now db).1
      = { status := 500, body := .errorMsg "Error while inserting a new recipe" } ∧
    (NewRecipeHandler (.ok r) (some e) now db).2.docs = db.docs :=
  ⟨rfl, rfl⟩

/-- C6: when the path id fails to parse as an ObjectID, the discarded parse
error leaves the zero ObjectID, which matches no stored document (stored ids
are nonzero), so `UpdateRecipeHandler` answers HTTP 200 with the confirmation
message and changes nothing. -/
theorem update_invalid_id_silently_succeeds (id : String) (r : Recipe) (db : DB)
    (hbad : ∃ e, ObjectIDFromHex id = .error e)
    (hnil : ∀ d ∈ db.docs, d.ID ≠ 0) :
    UpdateRecipeHandler id (.ok r) none db
      = ({ status := 200, body := .message "Recipe has been updated" }, db) := by
  obtain ⟨e, he⟩ := hbad
  have hpid : parsedObjectId id = 0 := by unfold parsedObjectId; rw [he]
  have hdocs : updateOne 0 r db.docs = db.docs := updateOne_no_match 0 r db.docs hnil
  have hun : UpdateRecipeHandler id (.ok r) none db
      = ({ status := 200, body := .message "Recipe has been updated" },
         { db with docs := updateOne (parsedObjectId id) r db.docs }) := rfl
  rw [hun, hpid, hdocs]

/-- Witness for C6: the non-hex path id `zz` against `db0` (ids 1 and 2). -/
theorem update_invalid_id_silently_succeeds_witness :
    UpdateRecipeHandler "zz" (.ok rIn) none db0
      = ({ status := 200, body := .message "Recipe has been updated" }, db0) :=
  update_invalid_id_silently_succeeds "zz" rIn db0 ⟨_, rfl⟩ (by decide)

/-- C7 counterexample: the claim says an absent/empty `tag` query always
returns the empty list, but a cached recipe carrying an empty-string tag is
matched by the empty query (`strings.EqualFold("", "")` holds), so the search
returns it. -/
theorem search_empty_tag_counterexample :
    Query none = "" ∧
    SearchRecipesHandler (Query none) [emptyTagRecipe]
      = { status := 200, body := .recipes (some [emptyTagRecipe]) } ∧
    (some [emptyTagRecipe] : RecipeSlice) ≠ some [] := by
  exact ⟨rfl, by decide, by decide⟩

/-- C7 amended: an absent or empty `tag` query returns the empty list whenever
no cached recipe carries the empty string among its tags (the empty query
matches exactly the empty tag). -/
theorem search_empty_tag_amended (tagParam : Option String) (cache : List Recipe)
    (habsent : Query tagParam = "")
    (hnoempty : ∀ r ∈ cache, "" ∉ r.Tags) :
    SearchRecipesHandler (Query tagParam) cache
      = { status := 200, body := .recipes (some []) } := by
  rw [habsent, search_spec]
  have hfil : cache.filter (tagMatch "") = [] := by
    rw [List.filter_eq_nil_iff]
    intro r hr hmatch
    simp only [tagMatch, List.any_eq_true] at hmatch
    obtain ⟨t, ht, heq⟩ := hmatch
    obtain rfl := (equalFold_empty_iff t).mp heq
    exact hnoempty r hr ht
  rw [hfil]

/-- Witness for C7's amended statement: absent parameter, cache `[dA]` whose
only tag is `x`. -/
theorem search_empty_tag_amended_witness :
    SearchRecipesHandler (Query none) [dA]
      = { status := 200, body := .recipes (some []) } :=
  search_empty_tag_amended none [dA] rfl (by decide)

theorem handle_preserves_cache (s : AppState) (req : Request) :
    (handle s req).1.recipes = s.recipes := by
  cases req with
  | list findErr => cases findErr <;> rfl
  | create body insertErr now => rfl
  | search tag => rfl
  | update id body updateErr => rfl

theorem run_cache_empty (reqs : List Request) (s : AppState) :
    (run s reqs).recipes = s.recipes := by
  induction reqs generalizing s with
  | nil => rfl
  | cons req reqs ih => rw [run, ih, handle_preserves_cache]

/-- C8: the process-wide `recipes` cache is never assigned on any reachable
path of the active program (the list handler's local `recipes` shadows it), so
after any request sequence from startup the cache is still empty and every
search request answers HTTP 200 with the empty (non-nil) list. -/
theorem cache_never_assigned_search_always_empty (reqs : List Request) (tag : Option String) :
    (run initState reqs).recipes = [] ∧
    (handle (run initState reqs) (.search tag)).2
      = { status := 200, body := .recipes (some []) } := by
  have hc : (run initState reqs).recipes = [] := run_cache_empty reqs initState
  refine ⟨hc, ?_⟩
  show SearchRecipesHandler (Query tag) (run initState reqs).recipes = _
  rw [hc, search_spec]
  rfl

/-- C9: an empty list result and an empty search result are built from
`make([]Recipe, 0)`, a non-nil slice, so they marshal to the JSON array `[]`
and not to `null` (which is what the nil slice would produce), whatever the
element marshaller is. -/
theorem empty_results_marshal_empty_array (render : Recipe → String) (tag : String)
    (cache : List Recipe)
    (hnomatch : ∀ r ∈ cache, r.Tags.any (fun t => EqualFold t tag) = false) :
    (ListRecipeHandler (.ok [])).body = .recipes (some []) ∧
    (SearchRecipesHandler tag cache).body = .recipes (some []) ∧
    goMarshalSlice render (some []) = "[]" ∧
    goMarshalSlice render none = "null" ∧
    "[]" ≠ "null" := by
  refine ⟨rfl, ?_, rfl, rfl, by decide⟩
  have hfil : cache.filter (tagMatch tag) = [] := by
    rw [List.filter_eq_nil_iff]
    intro r hr hmatch
    rw [tagMatch, hnomatch r hr] at hmatch
    exact Bool.false_ne_true hmatch
  rw [search_spec, hfil]

/-- Witness for C9 at a concrete no-match search: cache `[rIn]` (tag
`italian`), query `french`. -/
theorem empty_results_marshal_empty_array_witness :
    (SearchRecipesHandler "french" [rIn]).body = .recipes (some []) :=
  (empty_results_marshal_empty_array (fun _ => "") "french" [rIn] (by decide)).2.1

/-- C10: for every cursor, the list handler answers HTTP 200 with exactly one
entry per cursor document; a document whose decode fails contributes the
zero-valued recipe instead of an error. -/
theorem list_ignores_decode_errors (cur : List (Except String Recipe)) :
    ListRecipeHandler (.ok cur)
      = { status := 200, body := .recipes (some (cur.map decodeOrZero)) } ∧
    (cur.map decodeOrZero).length = cur.length ∧
    (∀ (i : Nat) (e : String),
      cur[i]? = some (.error e) → (cur.map decodeOrZero)[i]? = some zeroRecipe) := by
  refine ⟨?_, List.length_map _ _, ?_⟩
  · show ({ status := 200,
            body := .recipes (cur.foldl (fun acc doc => goAppend acc (decodeOrZero doc)) goMake) }
          : HResponse) = _
    rw [show goMake = some [] from rfl, list_foldl_map]
    simp
  · intro i e h
    rw [List.getElem?_map, h]
    rfl

/-- Witness for C10: a two-document cursor whose first document fails to
decode yields the zero recipe in position 0. -/
theorem list_ignores_decode_errors_witness :
    ([Except.error "boom", Except.ok dA].map decodeOrZero)[0]? = some zeroRecipe :=
  (list_ignores_decode_errors [Except.error "boom", Except.ok dA]).2.2 0 "boom" rfl
